import Mathlib

/-!
Verification development for the UiaOperationAbstraction layer exercised by
`src/src/UIAutomation/FunctionalTests/UiaOperationAbstractionTests.cpp`.

The test file is the only source present; the abstraction layer it exercises
(scopes, wrapper values, cache requests, the remote program compiler/executor)
is modelled from the specification.  Identifiers appearing in the test file
(`CanBeReturned`, `UiaCacheRequest`, `AddProperty`, `AddPattern`,
`UiaOperationScope`, `BindResult`, `Resolve`, `GetName`, `GetTextPattern`,
`GetParentElement`, ...) keep their source names.
-/

namespace UiaOperationAbstraction

/-- Error taxonomy of the abstraction layer, following the spec's section 7. -/
inductive UiaError
  | initializationError
  | scopeStateError
  | uncachedAccessError
  | transportError
  | conversionError
  | returnabilityViolation
  deriving DecidableEq, Repr

/-- Execution mode, fixed for the lifetime of the initialized abstraction. -/
inductive ExecutionMode
  | localMode
  | remoteMode
  deriving DecidableEq, Repr

/-- The catalog of types a caller can mention when using the abstraction:
the wrapper types of the test file plus a stand-in for an arbitrary
non-wrapper type (such as a plain integer), so that statements about
`CanBeReturned` quantify beyond the wrapper catalog itself. -/
inductive WrapperType
  | uiaElementType
  | uiaTextPatternType
  | uiaTextRangeType
  | uiaBstrType
  | uiaCacheRequestType
  | nonWrapperType
  deriving DecidableEq, Repr

/-- Names of members a type in the catalog may expose. -/
inductive MemberName
  | fromRemoteResultMember
  | addPropertyMember
  | addPatternMember
  | getNameMember
  | getParentElementMember
  | getFirstChildElementMember
  | getTextPatternMember
  | getDocumentRangeMember
  | getEnclosingElementMember
  deriving DecidableEq, Repr

open MemberName in
/-- Modelled from the spec: the member surface of each type in the catalog
(section 6, "Wrapper-value API" and "CacheRequest API"; section 4.1 gives
`FromRemoteResult` to the wrapper value types allowed as remote outputs,
while section 4.5 records that CacheRequest deliberately does not implement
it, and a non-wrapper type exposes none of these members). -/
def memberSurface : WrapperType → List MemberName
  | WrapperType.uiaElementType =>
      [fromRemoteResultMember, getNameMember, getParentElementMember,
       getFirstChildElementMember, getTextPatternMember]
  | WrapperType.uiaTextPatternType =>
      [fromRemoteResultMember, getDocumentRangeMember]
  | WrapperType.uiaTextRangeType =>
      [fromRemoteResultMember, getEnclosingElementMember]
  | WrapperType.uiaBstrType => [fromRemoteResultMember]
  | WrapperType.uiaCacheRequestType => [addPropertyMember, addPatternMember]
  | WrapperType.nonWrapperType => []

/-- Whether a type exposes a callable member `FromRemoteResult`
(the expression the SFINAE probe in the test file asks the compiler about). -/
def hasFromRemoteResult (T : WrapperType) : Bool :=
  MemberName.fromRemoteResultMember ∈ memberSurface T

/-- Embedding of the SFINAE detector of the test file (lines 35-41): the
specialised overload is selected exactly when the expression
`declval<T>().FromRemoteResult(declval<IInspectable>())` is well formed,
i.e. when `T` exposes the member; otherwise the never-ill-formed
`false_type` fallback is selected. -/
def CanBeReturned (T : WrapperType) : Bool :=
  if hasFromRemoteResult T then true else false

/-- Modelled from the spec: which wrapper types implement the
`FromRemoteResult(rawValue) -> T` conversion of section 4.1 — every wrapper
value type allowed as a remote output does; CacheRequest does not (section
4.5), and a non-wrapper type does not. -/
def implementsFromRemoteResult : WrapperType → Bool
  | WrapperType.uiaElementType => true
  | WrapperType.uiaTextPatternType => true
  | WrapperType.uiaTextRangeType => true
  | WrapperType.uiaBstrType => true
  | WrapperType.uiaCacheRequestType => false
  | WrapperType.nonWrapperType => false

/-- UIA property identifier used by the tests (UIA_NamePropertyId). -/
def UIA_NamePropertyId : Nat := 30005

/-- UIA pattern identifier used by the tests (UIA_TextPatternId). -/
def UIA_TextPatternId : Nat := 10014

/-- Modelled from the spec: a cache request is a mutable ordered set of
property ids and pattern ids to prefetch when materializing an element
across the process boundary (section 3 "CacheRequest", section 4.2). -/
structure UiaCacheRequest where
  properties : List Nat
  patterns : List Nat
  deriving DecidableEq, Repr

/-- A freshly constructed cache request holds no identifiers. -/
def UiaCacheRequest.new : UiaCacheRequest := ⟨[], []⟩

/-- Modelled from the spec: `AddProperty(id)` idempotently adds a property
identifier to the request's accumulated set (section 4.2: re-adding is a
no-op, not an error). -/
def UiaCacheRequest.AddProperty (cr : UiaCacheRequest) (id : Nat) : UiaCacheRequest :=
  if id ∈ cr.properties then cr
  else { cr with properties := cr.properties ++ [id] }

/-- Modelled from the spec: `AddPattern(id)` idempotently adds a pattern
identifier to the request's accumulated set (section 4.2). -/
def UiaCacheRequest.AddPattern (cr : UiaCacheRequest) (id : Nat) : UiaCacheRequest :=
  if id ∈ cr.patterns then cr
  else { cr with patterns := cr.patterns ++ [id] }

/-- Association-list lookup keyed by `Nat`. -/
def alookup {α : Type} (xs : List (Nat × α)) (k : Nat) : Option α :=
  match xs with
  | [] => none
  | (k₀, v) :: rest => if k₀ = k then some v else alookup rest k

/-- Modelled from the spec: the live accessibility tree behind the external
automation service — element ids with parent/first-child links, a name per
element, per-element property values, and the set of elements supporting
the text pattern.  The abstraction only moves these values across the
local/remote boundary; their meaning is external (spec section 1). -/
structure AutomationTree where
  parentOf : List (Nat × Nat)
  firstChildOf : List (Nat × Nat)
  nameOf : List (Nat × String)
  propOf : List ((Nat × Nat) × String)
  textSupport : List Nat
  deriving Repr

/-- Live fetch of an element's name (empty result when the tree has none). -/
def liveName (t : AutomationTree) (elemId : Nat) : String :=
  (alookup t.nameOf elemId).getD ""

/-- Live fetch of a property value: the name property reads the element's
name; other properties read the per-element property table, yielding
`none` for an empty VARIANT. -/
def liveProp (t : AutomationTree) (elemId pid : Nat) : Option String :=
  if pid = UIA_NamePropertyId then some (liveName t elemId)
  else
    match t.propOf.find? (fun e => e.1 = (elemId, pid)) with
    | some e => some e.2
    | none => none

/-- Live fetch of a pattern: `some elemId` when the element supports the
pattern (a handle onto the live object), `none` (a null pattern) when it
does not. -/
def livePattern (t : AutomationTree) (elemId qid : Nat) : Option Nat :=
  if qid = UIA_TextPatternId ∧ elemId ∈ t.textSupport then some elemId else none

/-- Modelled from the spec: the data an element carries with it across the
process boundary when materialized through a cache request — the requested
property values and pattern handles fetched from the live object at
materialization time (section 3 "CacheRequest", section 4.1). -/
structure CachedData where
  cachedProps : List (Nat × Option String)
  cachedPatterns : List (Nat × Option Nat)
  deriving DecidableEq, Repr

/-- Modelled from the spec: a wrapper element value — an element id plus the
cached data it was materialized with (`none` when no cache request was
supplied, in which case it has no cached data at all; section 4.1). -/
structure UiaElement where
  elemId : Nat
  cached : Option CachedData
  deriving DecidableEq, Repr

/-- Modelled from the spec: materializing the element with id `elemId`
across the process boundary.  With a cache request, exactly the requested
properties and patterns are fetched from the live object now and travel
with the element; with none, the element carries no cached data
(section 4.1, navigation/pattern-retrieval contract). -/
def materialize (t : AutomationTree) (elemId : Nat) (cr : Option UiaCacheRequest) :
    UiaElement :=
  match cr with
  | none => ⟨elemId, none⟩
  | some cr =>
      ⟨elemId,
       some ⟨cr.properties.map (fun p => (p, liveProp t elemId p)),
             cr.patterns.map (fun q => (q, livePattern t elemId q))⟩⟩

/-- Result of a wrapper accessor call: the outcome, paired with the number
of cross-process round trips the call performed. -/
abbrev AccessResult (α : Type) : Type := Except UiaError α × Nat

/-- Modelled from the spec: generic property read on a materialized element.
With `useCachedApi = true` the call only ever reads data fetched via a
satisfied cache request at materialization — if the property was not cached
the access fails with `uncachedAccessError` and performs no cross-process
round trip (section 4.1).  With `useCachedApi = false` it performs a fresh
cross-process fetch. -/
def UiaElement.GetPropertyValue (t : AutomationTree) (e : UiaElement) (pid : Nat)
    (useCachedApi : Bool) : AccessResult (Option String) :=
  if useCachedApi then
    match e.cached with
    | none => (Except.error UiaError.uncachedAccessError, 0)
    | some c =>
        match alookup c.cachedProps pid with
        | none => (Except.error UiaError.uncachedAccessError, 0)
        | some v => (Except.ok v, 0)
  else (Except.ok (liveProp t e.elemId pid), 1)

/-- Modelled from the spec: generic pattern read on a materialized element,
with the same cached/uncached discipline as property reads.  A cached read
of a requested but unsupported pattern succeeds and yields the cached null
pattern (section 8, end-to-end scenario B). -/
def UiaElement.GetPatternValue (t : AutomationTree) (e : UiaElement) (qid : Nat)
    (useCachedApi : Bool) : AccessResult (Option Nat) :=
  if useCachedApi then
    match e.cached with
    | none => (Except.error UiaError.uncachedAccessError, 0)
    | some c =>
        match alookup c.cachedPatterns qid with
        | none => (Except.error UiaError.uncachedAccessError, 0)
        | some v => (Except.ok v, 0)
  else (Except.ok (livePattern t e.elemId qid), 1)

/-- The `GetName` accessor of the test file: a name-property read. -/
def UiaElement.GetName (t : AutomationTree) (e : UiaElement) (useCachedApi : Bool) :
    AccessResult (Option String) :=
  UiaElement.GetPropertyValue t e UIA_NamePropertyId useCachedApi

/-- The `GetTextPattern` accessor of the test file: a text-pattern read. -/
def UiaElement.GetTextPattern (t : AutomationTree) (e : UiaElement) (useCachedApi : Bool) :
    AccessResult (Option Nat) :=
  UiaElement.GetPatternValue t e UIA_TextPatternId useCachedApi

/-! ## The operation language shared by both execution modes

Modelled from the spec (sections 3 "RemoteProgram" and 4.4): an operation
names its callee, its argument placeholders and its output placeholder.
Local mode executes each operation immediately when issued; Remote mode
records them and replays the same operations provider-side at `Resolve`. -/

/-- Values held in a scope's placeholder registers. -/
inductive UiaValue
  | vElement (e : UiaElement)
  | vBstr (s : String)
  | vTextPattern (p : Option Nat)
  | vTextRange (elemId : Nat)
  deriving DecidableEq, Repr

/-- The wrapper type of a register value. -/
def UiaValue.typeOf : UiaValue → WrapperType
  | UiaValue.vElement _ => WrapperType.uiaElementType
  | UiaValue.vBstr _ => WrapperType.uiaBstrType
  | UiaValue.vTextPattern _ => WrapperType.uiaTextPatternType
  | UiaValue.vTextRange _ => WrapperType.uiaTextRangeType

/-- Modelled from the spec: one recorded operation — callee, argument
placeholder, optional cache request, output placeholder (section 3
"RemoteProgram": callee, arguments, output placeholder id). -/
inductive RemoteOp
  | fromNative (dst : Nat) (elemId : Nat)
  | getName (dst src : Nat)
  | getParentElement (dst src : Nat) (cr : Option UiaCacheRequest)
  | getFirstChildElement (dst src : Nat) (cr : Option UiaCacheRequest)
  | getTextPattern (dst src : Nat)
  | getDocumentRange (dst src : Nat)
  | getEnclosingElement (dst src : Nat) (cr : Option UiaCacheRequest)
  deriving DecidableEq, Repr

/-- Register file of a scope: placeholder id to value. -/
abbrev Regs : Type := List (Nat × UiaValue)

/-- Write a placeholder register (replacing any earlier value). -/
def setReg (regs : Regs) (i : Nat) (v : UiaValue) : Regs :=
  (i, v) :: (regs.filter (fun p => p.1 ≠ i))

/-- Read a placeholder register. -/
def getReg (regs : Regs) (i : Nat) : Option UiaValue := alookup regs i

/-- Read a register that must hold an element. -/
def getElemReg (regs : Regs) (i : Nat) : Except UiaError UiaElement :=
  match getReg regs i with
  | some (UiaValue.vElement e) => Except.ok e
  | _ => Except.error UiaError.transportError

/-- Modelled from the spec: the per-operation semantics both modes share —
Local mode runs it immediately as one synchronous cross-process call,
Remote mode replays it provider-side (section 9, "shared operation-
recording interface").  A navigation from a missing link or an ill-typed
argument is a provider-side execution failure. -/
def execOp (t : AutomationTree) (op : RemoteOp) (regs : Regs) : Except UiaError Regs :=
  match op with
  | RemoteOp.fromNative dst elemId =>
      Except.ok (setReg regs dst (UiaValue.vElement (materialize t elemId none)))
  | RemoteOp.getName dst src => do
      let e ← getElemReg regs src
      Except.ok (setReg regs dst (UiaValue.vBstr (liveName t e.elemId)))
  | RemoteOp.getParentElement dst src cr => do
      let e ← getElemReg regs src
      match alookup t.parentOf e.elemId with
      | none => Except.error UiaError.transportError
      | some p => Except.ok (setReg regs dst (UiaValue.vElement (materialize t p cr)))
  | RemoteOp.getFirstChildElement dst src cr => do
      let e ← getElemReg regs src
      match alookup t.firstChildOf e.elemId with
      | none => Except.error UiaError.transportError
      | some c => Except.ok (setReg regs dst (UiaValue.vElement (materialize t c cr)))
  | RemoteOp.getTextPattern dst src => do
      let e ← getElemReg regs src
      Except.ok (setReg regs dst (UiaValue.vTextPattern (livePattern t e.elemId UIA_TextPatternId)))
  | RemoteOp.getDocumentRange dst src =>
      match getReg regs src with
      | some (UiaValue.vTextPattern (some elemId)) =>
          Except.ok (setReg regs dst (UiaValue.vTextRange elemId))
      | _ => Except.error UiaError.transportError
  | RemoteOp.getEnclosingElement dst src cr =>
      match getReg regs src with
      | some (UiaValue.vTextRange elemId) =>
          Except.ok (setReg regs dst (UiaValue.vElement (materialize t elemId cr)))
      | _ => Except.error UiaError.transportError

/-- Run a sequence of operations in program order over the shared
per-operation semantics, aborting at the first failure. -/
def runOps (t : AutomationTree) (ops : List RemoteOp) (regs : Regs) :
    Except UiaError Regs :=
  match ops with
  | [] => Except.ok regs
  | op :: rest =>
      match execOp t op regs with
      | Except.error e => Except.error e
      | Except.ok regs => runOps t rest regs

/-! ## Local-mode execution

Modelled from the spec (glossary "Local mode", section 4.3): eager
execution, one synchronous cross-process call per operation, in program
order; `Resolve` is a pass-through that reads the already-computed
results of the bound placeholders. -/

/-- A scope's binding table: bound placeholder ids with the wrapper type of
the bound value (the type is statically known at the `BindResult` call). -/
abbrev Bindings : Type := List (Nat × WrapperType)

/-- Collect fallible results in order, aborting at the first failure. -/
def collectResults {α β : Type} (f : α → Except UiaError β) :
    List α → Except UiaError (List β)
  | [] => Except.ok []
  | a :: rest =>
      match f a with
      | Except.error e => Except.error e
      | Except.ok b =>
          match collectResults f rest with
          | Except.error e => Except.error e
          | Except.ok bs => Except.ok (b :: bs)

/-- Read the bound placeholders out of a register file. -/
def readBound (regs : Regs) (bs : Bindings) : Except UiaError (List UiaValue) :=
  collectResults (fun b =>
    match getReg regs b.1 with
    | some v => Except.ok v
    | none => Except.error UiaError.transportError) bs

/-- Modelled from the spec: Local-mode resolution — every operation already
ran eagerly, one synchronous call each, in program order, so resolution
just reads each bound placeholder's value (section 4.3 `Resolve`). -/
def resolveLocal (t : AutomationTree) (ops : List RemoteOp) (bs : Bindings) :
    Except UiaError (List UiaValue) :=
  match runOps t ops [] with
  | Except.error e => Except.error e
  | Except.ok regs => readBound regs bs

/-! ## Remote-mode execution

Modelled from the spec (sections 3 "RemoteProgram" and 4.4): the recorded
operations are compiled into one program, submitted as a single atomic
cross-process call, executed provider-side, and the raw results are
demultiplexed back into the bound placeholders via each type's
`FromRemoteResult`. -/

/-- The raw wire form of a value returned by the provider-side executor
(an IInspectable payload in the real system). -/
inductive RawValue
  | rawElement (elemId : Nat) (cached : Option CachedData)
  | rawBstr (s : String)
  | rawTextPattern (p : Option Nat)
  | rawTextRange (elemId : Nat)
  deriving DecidableEq, Repr

/-- Serialize a register value into its wire form. -/
def toRaw : UiaValue → RawValue
  | UiaValue.vElement e => RawValue.rawElement e.elemId e.cached
  | UiaValue.vBstr s => RawValue.rawBstr s
  | UiaValue.vTextPattern p => RawValue.rawTextPattern p
  | UiaValue.vTextRange i => RawValue.rawTextRange i

/-- Modelled from the spec: each returnable wrapper type's
`FromRemoteResult(rawValue) -> T` conversion, invoked only after the owning
scope resolves; a payload of the wrong shape for the expected type is a
conversion failure (section 4.1 and section 7 "ConversionError"). -/
def FromRemoteResult (ty : WrapperType) (raw : RawValue) : Except UiaError UiaValue :=
  match ty, raw with
  | WrapperType.uiaElementType, RawValue.rawElement i c =>
      Except.ok (UiaValue.vElement ⟨i, c⟩)
  | WrapperType.uiaBstrType, RawValue.rawBstr s => Except.ok (UiaValue.vBstr s)
  | WrapperType.uiaTextPatternType, RawValue.rawTextPattern p =>
      Except.ok (UiaValue.vTextPattern p)
  | WrapperType.uiaTextRangeType, RawValue.rawTextRange i =>
      Except.ok (UiaValue.vTextRange i)
  | _, _ => Except.error UiaError.conversionError

/-- A compiled remote program: the recorded operations in issue order plus
the bound output placeholders. -/
structure RemoteProgram where
  ops : List RemoteOp
  outputs : Bindings

/-- Modelled from the spec: compilation of the recorded sequence.  The
returnability check runs here, before any remote call is attempted: a bound
placeholder whose type does not support `FromRemoteResult` is rejected
statically (sections 4.4 and 4.5). -/
def compileProgram (ops : List RemoteOp) (bs : Bindings) :
    Except UiaError RemoteProgram :=
  if bs.all (fun b => CanBeReturned b.2) then Except.ok ⟨ops, bs⟩
  else Except.error UiaError.returnabilityViolation

/-- Modelled from the spec: the provider-side executor — replays the
operations in recorded order and ships every placeholder's result back in
wire form, keyed by placeholder id (section 4.4). -/
def executeProviderSide (t : AutomationTree) (p : RemoteProgram) :
    Except UiaError (List (Nat × RawValue)) :=
  match runOps t p.ops [] with
  | Except.error e => Except.error e
  | Except.ok regs => Except.ok (regs.map (fun r => (r.1, toRaw r.2)))

/-- Demultiplex the provider's raw results back into the bound
placeholders by id, converting each via its type's `FromRemoteResult`; a
missing or unconvertible result is fatal to the whole resolution. -/
def demuxResults (raws : List (Nat × RawValue)) (bs : Bindings) :
    Except UiaError (List UiaValue) :=
  collectResults (fun b =>
    match alookup raws b.1 with
    | some raw => FromRemoteResult b.2 raw
    | none => Except.error UiaError.conversionError) bs

/-- Modelled from the spec: Remote-mode resolution — compile the recording,
execute it as one atomic cross-process call, demultiplex the raw results
into the bound placeholders.  The second component counts the cross-process
calls performed: `0` when compilation rejects the program, `1` once the
batch is submitted (sections 4.4 and 4.5). -/
def resolveRemote (t : AutomationTree) (ops : List RemoteOp) (bs : Bindings) :
    Except UiaError (List UiaValue) × Nat :=
  match compileProgram ops bs with
  | Except.error e => (Except.error e, 0)
  | Except.ok p =>
      match executeProviderSide t p with
      | Except.error e => (Except.error e, 1)
      | Except.ok raws => (demuxResults raws bs, 1)

/-! ## The operation scope and its state machine

Modelled from the spec, section 4.3: Open → Resolving → (Resolved | Failed),
Resolved and Failed terminal. -/

/-- Scope states of the spec's section 4.3 state machine. -/
inductive ScopeState
  | openState
  | resolvingState
  | resolvedState
  | failedState
  deriving DecidableEq, Repr

/-- Modelled from the spec: an operation scope — its state, the recorded
operation sequence, the binding table, and after a successful resolution
the materialized bound values (section 3 "OperationScope"). -/
structure UiaOperationScope where
  state : ScopeState
  recorded : List RemoteOp
  bindings : Bindings
  results : Option (List UiaValue)

/-- `StartNew` creates a scope in the Open state with nothing recorded. -/
def UiaOperationScope.StartNew : UiaOperationScope :=
  ⟨ScopeState.openState, [], [], none⟩

/-- Modelled from the spec: issuing an operation inside a scope records it
while the scope is Open; a scope that is no longer Open rejects it with a
scope-state error (sections 4.3 and 7). -/
def UiaOperationScope.recordOp (s : UiaOperationScope) (op : RemoteOp) :
    UiaOperationScope × Option UiaError :=
  if s.state = ScopeState.openState then
    ({ s with recorded := s.recorded ++ [op] }, none)
  else (s, some UiaError.scopeStateError)

/-- Modelled from the spec: `BindResult` registers a placeholder (with the
wrapper type of the bound value) while the scope is Open; binding into a
scope that is no longer Open fails with a scope-state error (section 4.3). -/
def UiaOperationScope.BindResult (s : UiaOperationScope) (i : Nat) (ty : WrapperType) :
    UiaOperationScope × Option UiaError :=
  if s.state = ScopeState.openState then
    ({ s with bindings := s.bindings ++ [(i, ty)] }, none)
  else (s, some UiaError.scopeStateError)

/-- First half of `Resolve`: Open → Resolving; any other starting state is
rejected with a scope-state error and the scope is left unchanged. -/
def UiaOperationScope.beginResolve (s : UiaOperationScope) :
    UiaOperationScope × Option UiaError :=
  if s.state = ScopeState.openState then
    ({ s with state := ScopeState.resolvingState }, none)
  else (s, some UiaError.scopeStateError)

/-- Second half of `Resolve` in Remote mode: execute the compiled program
as one atomic cross-process call.  On success every bound placeholder is
materialized and the scope becomes Resolved; on any failure the scope
becomes Failed, no bound placeholder is materialized, and the single error
surfaces to the caller (sections 4.3 and 4.4). -/
def UiaOperationScope.finishResolve (t : AutomationTree) (s : UiaOperationScope) :
    UiaOperationScope × Option UiaError :=
  match (resolveRemote t s.recorded s.bindings).1 with
  | Except.ok vs =>
      ({ s with state := ScopeState.resolvedState, results := some vs }, none)
  | Except.error e =>
      ({ s with state := ScopeState.failedState, results := none }, some e)

/-- Modelled from the spec: `Resolve` in Remote mode — transition to
Resolving, then run the batch to a terminal state (section 4.3). -/
def UiaOperationScope.Resolve (t : AutomationTree) (s : UiaOperationScope) :
    UiaOperationScope × Option UiaError :=
  match s.beginResolve with
  | (s₁, none) => s₁.finishResolve t
  | (s₁, some e) => (s₁, some e)

/-- The transition relation of the spec's scope state machine: a state may
stay put, and otherwise only Open → Resolving → (Resolved | Failed). -/
def scopeStepOk : ScopeState → ScopeState → Bool
  | a, b =>
    a = b
      ∨ (a = ScopeState.openState ∧ b = ScopeState.resolvingState)
      ∨ (a = ScopeState.resolvingState ∧ b = ScopeState.resolvedState)
      ∨ (a = ScopeState.resolvingState ∧ b = ScopeState.failedState)

/-- A scope state is terminal when it is Resolved or Failed. -/
def ScopeState.isTerminal : ScopeState → Bool
  | ScopeState.resolvedState => true
  | ScopeState.failedState => true
  | _ => false

/-! ## The initialization bracket

From the source (test file lines 43-53): `InitializeUiaOperationAbstraction`
calls `UiaOperationAbstraction::Initialize` and returns a `wil::scope_exit`
guard whose callback runs `UiaOperationAbstraction::Cleanup` when the guard
leaves scope, on every exit path including exceptional exit. -/

/-- Events observable while a test body runs under the guard. -/
inductive AbstractionEvent
  | evInit
  | evCleanup
  | evBody (n : Nat)
  deriving DecidableEq, Repr

/-- A test body: the events it emits, and the error it throws if it exits
exceptionally (`none` for a normal return). -/
structure TestBody where
  events : List AbstractionEvent
  thrown : Option UiaError

/-- Embedding of `InitializeUiaOperationAbstraction` plus the lifetime of
the guard it returns: when creating the automation object succeeds, the
abstraction is initialized, the body runs, and the `wil::scope_exit` guard
runs Cleanup when it leaves scope — whether the body returned normally or
threw.  When creating the automation object fails, the call throws before
any Initialize happens, so no guard exists and no Cleanup runs. -/
def runWithAbstractionGuard (comCreateOk : Bool) (body : TestBody) :
    List AbstractionEvent × Option UiaError :=
  if comCreateOk then
    (AbstractionEvent.evInit :: body.events ++ [AbstractionEvent.evCleanup], body.thrown)
  else ([], some UiaError.initializationError)

/-! ## Concrete sample data

A small accessibility tree shaped like the calculator UI the functional
tests drive: window 1 ("Calculator") → pane 2 → display text 3
("Display is 0") → child text 4 ("0"); elements 3 and 4 support the text
pattern, the window and pane do not. -/

/-- Sample tree used to evaluate the development on concrete inputs. -/
def calcTree : AutomationTree :=
  { parentOf := [(4, 3), (3, 2), (2, 1)]
    firstChildOf := [(1, 2), (2, 3), (3, 4)]
    nameOf := [(1, "Calculator"), (2, "Pane"), (3, "Display is 0"), (4, "0")]
    propOf := []
    textSupport := [3, 4] }

/-- Sample cache request of the tests: name property plus text pattern. -/
def sampleCacheRequest : UiaCacheRequest :=
  (UiaCacheRequest.new.AddProperty UIA_NamePropertyId).AddPattern UIA_TextPatternId

/-- Sample recording, mirroring `ElementGetNameTest`: import the focused
element and read its name. -/
def sampleOps : List RemoteOp :=
  [RemoteOp.fromNative 0 3, RemoteOp.getName 1 0]

/-- Sample binding table: the name placeholder, bound as a BSTR. -/
def sampleBindings : Bindings := [(1, WrapperType.uiaBstrType)]

/-- Sample open scope holding the sample recording and binding. -/
def sampleScope : UiaOperationScope :=
  ⟨ScopeState.openState, sampleOps, sampleBindings, none⟩

/-- Sample scope already in the terminal Resolved state. -/
def resolvedScope : UiaOperationScope :=
  ⟨ScopeState.resolvedState, [], [], some []⟩

end UiaOperationAbstraction

namespace UiaOperationAbstraction

/-! ## Helper lemmas -/

/-- Looking a key up in a pointwise-mapped association list maps the
lookup result. -/
theorem alookup_map_snd {α β : Type} (g : α → β) :
    ∀ (xs : List (Nat × α)) (k : Nat),
      alookup (xs.map (fun r => (r.1, g r.2))) k = (alookup xs k).map g := by
  intro xs
  induction xs with
  | nil => intro k; rfl
  | cons hd tl ih =>
      intro k
      by_cases h : hd.1 = k
      · simp [alookup, h]
      · simp [alookup, h, ih k]

/-- Looking a key up in an association list whose entries pair each key
with a function of itself yields that function exactly on members. -/
theorem alookup_map_self {α : Type} (f : Nat → α) :
    ∀ (l : List Nat) (k : Nat),
      alookup (l.map (fun p => (p, f p))) k = if k ∈ l then some (f k) else none := by
  intro l
  induction l with
  | nil => intro k; rfl
  | cons hd tl ih =>
      intro k
      by_cases h : hd = k
      · subst h; simp [alookup]
      · have hne : ¬(k = hd) := fun hk => h hk.symm
        simp [alookup, h, hne, ih k]

/-- A successful `collectResults` yields one output per input. -/
theorem collectResults_ok_length {α β : Type} (f : α → Except UiaError β) :
    ∀ (l : List α) (bs : List β),
      collectResults f l = Except.ok bs → bs.length = l.length := by
  intro l
  induction l with
  | nil =>
      intro bs h
      simp [collectResults] at h
      simp [h.symm]
  | cons hd tl ih =>
      intro bs h
      cases hf : f hd with
      | error e => simp [collectResults, hf] at h
      | ok b =>
          cases hrest : collectResults f tl with
          | error e => simp [collectResults, hf, hrest] at h
          | ok bs₀ =>
              simp [collectResults, hf, hrest] at h
              subst h
              simp [ih bs₀ hrest]

/-- If every per-item success of `f` is matched by `g`, a successful
collection under `f` is also a successful collection under `g`. -/
theorem collectResults_congr_ok {α β : Type} (f g : α → Except UiaError β)
    (hfg : ∀ a b, f a = Except.ok b → g a = Except.ok b) :
    ∀ (l : List α) (bs : List β),
      collectResults f l = Except.ok bs → collectResults g l = Except.ok bs := by
  intro l
  induction l with
  | nil => intro bs h; exact h
  | cons hd tl ih =>
      intro bs h
      cases hf : f hd with
      | error e => simp [collectResults, hf] at h
      | ok b =>
          cases hrest : collectResults f tl with
          | error e => simp [collectResults, hf, hrest] at h
          | ok bs₀ =>
              simp [collectResults, hf, hrest] at h
              simp [collectResults, hfg hd b hf, ih bs₀ hrest, h.symm]

/-- Round-trip law of the wire format: a conversion that succeeds on a
serialized value returns that value. -/
theorem fromRemoteResult_toRaw_ok (ty : WrapperType) (v w : UiaValue)
    (h : FromRemoteResult ty (toRaw v) = Except.ok w) : w = v := by
  cases ty <;> cases v <;>
    simp [FromRemoteResult, toRaw] at h <;>
    simp [h.symm]

/-- The last entry of a nonempty list ending in a fixed element. -/
theorem getLast?_cons_concat {α : Type} (a c : α) (l : List α) :
    (a :: (l ++ [c])).getLast? = some c := by
  induction l generalizing a with
  | nil => rfl
  | cons b tl ih =>
      rw [show (a :: ((b :: tl) ++ [c])) = a :: b :: (tl ++ [c]) from rfl,
        List.getLast?_cons_cons]
      exact ih b

/-- The state machine allows staying put. -/
theorem scopeStepOk_refl (a : ScopeState) : scopeStepOk a a = true := by
  cases a <;> decide

/-- A successful remote resolution materializes one value per binding. -/
theorem resolveRemote_ok_length (t : AutomationTree) (ops : List RemoteOp)
    (bs : Bindings) (vs : List UiaValue)
    (h : (resolveRemote t ops bs).1 = Except.ok vs) : vs.length = bs.length := by
  cases hc : compileProgram ops bs with
  | error e => simp [resolveRemote, hc] at h
  | ok p =>
      cases he : executeProviderSide t p with
      | error e => simp [resolveRemote, hc, he] at h
      | ok raws =>
          simp [resolveRemote, hc, he] at h
          unfold demuxResults at h
          exact collectResults_ok_length _ bs vs h

/-- Core refinement: a successful remote resolution yields exactly the
values the eager local execution of the same recording produces. -/
theorem remote_ok_implies_local (t : AutomationTree) (ops : List RemoteOp)
    (bs : Bindings) (vs : List UiaValue)
    (h : (resolveRemote t ops bs).1 = Except.ok vs) :
    resolveLocal t ops bs = Except.ok vs := by
  cases hc : compileProgram ops bs with
  | error e => simp [resolveRemote, hc] at h
  | ok p =>
      have hp : p = RemoteProgram.mk ops bs := by
        unfold compileProgram at hc
        by_cases hall : bs.all (fun b => CanBeReturned b.2) = true <;>
          simp [hall] at hc
        exact hc.symm
      subst hp
      cases he : executeProviderSide t (RemoteProgram.mk ops bs) with
      | error e => simp [resolveRemote, hc, he] at h
      | ok raws =>
          simp [resolveRemote, hc, he] at h
          unfold executeProviderSide at he
          cases hrun : runOps t ops [] with
          | error e => rw [hrun] at he; simp at he
          | ok regs =>
              rw [hrun] at he
              simp at he
              subst he
              unfold resolveLocal
              rw [hrun]
              unfold demuxResults at h
              unfold readBound
              refine collectResults_congr_ok _ _ ?_ bs vs h
              intro b v hfv
              rw [alookup_map_snd toRaw regs b.1] at hfv
              cases ha : alookup regs b.1 with
              | none => rw [ha] at hfv; simp at hfv
              | some u =>
                  rw [ha] at hfv
                  simp at hfv
                  have hvu := fromRemoteResult_toRaw_ok b.2 u v hfv
                  subst hvu
                  simp [getReg, ha]

/-! ## Claim theorems -/

/-- C8: for every cache request and identifier, `AddProperty(id)` and
`AddPattern(id)` add the identifier to the accumulated set idempotently —
a second call with the same identifier leaves the request unchanged (and,
being total, raises no error). -/
theorem addProperty_addPattern_idempotent (cr : UiaCacheRequest) (id : Nat) :
    (cr.AddProperty id).AddProperty id = cr.AddProperty id
    ∧ id ∈ (cr.AddProperty id).properties
    ∧ (cr.AddPattern id).AddPattern id = cr.AddPattern id
    ∧ id ∈ (cr.AddPattern id).patterns := by
  refine ⟨?_, ?_, ?_, ?_⟩
  · by_cases h : id ∈ cr.properties <;>
      simp [UiaCacheRequest.AddProperty, h]
  · by_cases h : id ∈ cr.properties <;>
      simp [UiaCacheRequest.AddProperty, h]
  · by_cases h : id ∈ cr.patterns <;>
      simp [UiaCacheRequest.AddPattern, h]
  · by_cases h : id ∈ cr.patterns <;>
      simp [UiaCacheRequest.AddPattern, h]

/-- C2: every wrapper type implementing `FromRemoteResult` satisfies
`CanBeReturned`; `CanBeReturned` holds of `UiaElement` and fails for
`UiaCacheRequest`; and a binding of a cache request (or any other
non-returnable type) is rejected by program compilation with a
returnability violation before any cross-process call is attempted
(zero round trips). -/
theorem canBeReturned_gate :
    (∀ T : WrapperType, implementsFromRemoteResult T = true → CanBeReturned T = true)
    ∧ CanBeReturned WrapperType.uiaElementType = true
    ∧ CanBeReturned WrapperType.uiaCacheRequestType = false
    ∧ (∀ (t : AutomationTree) (ops : List RemoteOp) (bs : Bindings) (i : Nat)
        (ty : WrapperType), (i, ty) ∈ bs → CanBeReturned ty = false →
        resolveRemote t ops bs = (Except.error UiaError.returnabilityViolation, 0)) := by
  refine ⟨?_, by decide, by decide, ?_⟩
  · intro T h; cases T <;> simp_all [CanBeReturned, hasFromRemoteResult,
      memberSurface, implementsFromRemoteResult]
  · intro t ops bs i ty hmem hty
    have hall : bs.all (fun b => CanBeReturned b.2) = false := by
      cases hcase : bs.all (fun b => CanBeReturned b.2) with
      | false => rfl
      | true =>
          have htrue := List.all_eq_true.mp hcase (i, ty) hmem
          simp at htrue
          simp [htrue] at hty
    simp [resolveRemote, compileProgram, hall]

/-- Witness for C2 at a concrete binding table holding a cache request,
a non-returnable type. -/
theorem canBeReturned_gate_witness :
    resolveRemote calcTree [] [(0, WrapperType.uiaCacheRequestType)]
      = (Except.error UiaError.returnabilityViolation, 0) :=
  canBeReturned_gate.2.2.2 calcTree [] [(0, WrapperType.uiaCacheRequestType)] 0
    WrapperType.uiaCacheRequestType (by decide) (by decide)

/-- C9: the returnability detector is total over the whole type catalog —
every type receives a verdict (the fallback is never ill-formed) — and its
verdict is a biconditional: true exactly when the type exposes a callable
`FromRemoteResult` member, equivalently exactly when the type implements
the `FromRemoteResult` conversion. -/
theorem canBeReturned_total_biconditional (T : WrapperType) :
    (CanBeReturned T = true ∨ CanBeReturned T = false)
    ∧ (CanBeReturned T = true ↔ hasFromRemoteResult T = true)
    ∧ (CanBeReturned T = true ↔ implementsFromRemoteResult T = true) := by
  cases T <;> exact ⟨by decide, by decide, by decide⟩

/-- Witness for C9 at a concrete type of the catalog. -/
theorem canBeReturned_total_biconditional_witness :
    CanBeReturned WrapperType.uiaTextRangeType = true :=
  (canBeReturned_total_biconditional WrapperType.uiaTextRangeType).2.2.mpr (by decide)

/-- C3: on an element materialized without a cache request, every
cached-API property or pattern read fails with `uncachedAccessError` and
performs zero cross-process round trips. -/
theorem uncached_element_cached_access_fails (t : AutomationTree)
    (elemId pid qid : Nat) :
    UiaElement.GetPropertyValue t (materialize t elemId none) pid true
      = (Except.error UiaError.uncachedAccessError, 0)
    ∧ UiaElement.GetPatternValue t (materialize t elemId none) qid true
      = (Except.error UiaError.uncachedAccessError, 0) :=
  ⟨rfl, rfl⟩

/-- C4: on an element materialized with a cache request, cached-API reads
of a requested property or pattern succeed — returning exactly the live
data fetched at materialization time — while cached-API reads of anything
not in the request fail with `uncachedAccessError`; no cached read performs
a cross-process round trip. -/
theorem cached_element_access (t : AutomationTree) (elemId : Nat)
    (cr : UiaCacheRequest) (pid qid : Nat) :
    (pid ∈ cr.properties →
      UiaElement.GetPropertyValue t (materialize t elemId (some cr)) pid true
        = (Except.ok (liveProp t elemId pid), 0))
    ∧ (qid ∈ cr.patterns →
      UiaElement.GetPatternValue t (materialize t elemId (some cr)) qid true
        = (Except.ok (livePattern t elemId qid), 0))
    ∧ (pid ∉ cr.properties →
      UiaElement.GetPropertyValue t (materialize t elemId (some cr)) pid true
        = (Except.error UiaError.uncachedAccessError, 0))
    ∧ (qid ∉ cr.patterns →
      UiaElement.GetPatternValue t (materialize t elemId (some cr)) qid true
        = (Except.error UiaError.uncachedAccessError, 0)) := by
  have hp := alookup_map_self (fun p => liveProp t elemId p) cr.properties pid
  have hq := alookup_map_self (fun q => livePattern t elemId q) cr.patterns qid
  refine ⟨?_, ?_, ?_, ?_⟩ <;> intro h <;>
    simp [UiaElement.GetPropertyValue, UiaElement.GetPatternValue, materialize,
      hp, hq, h]

/-- Witness for C4: the cached name of the display's child text reads back
as the live value fetched at materialization. -/
theorem cached_element_access_witness :
    UiaElement.GetPropertyValue calcTree
        (materialize calcTree 4 (some sampleCacheRequest)) UIA_NamePropertyId true
      = (Except.ok (some ("0")), 0) :=
  ((cached_element_access calcTree 4 sampleCacheRequest UIA_NamePropertyId
      UIA_TextPatternId).1 (by decide)).trans rfl

/-- C7: on an element materialized with a cache request naming a pattern
the element does not support, the cached-API pattern read succeeds and
yields the null pattern rather than failing, while cached reads of
requested properties on the same element still return their live values. -/
theorem cached_unsupported_pattern_null (t : AutomationTree)
    (elemId pid qid : Nat) (cr : UiaCacheRequest)
    (hq : qid ∈ cr.patterns)
    (hunsup : ¬(qid = UIA_TextPatternId ∧ elemId ∈ t.textSupport)) :
    UiaElement.GetPatternValue t (materialize t elemId (some cr)) qid true
      = (Except.ok none, 0)
    ∧ (pid ∈ cr.properties →
      UiaElement.GetPropertyValue t (materialize t elemId (some cr)) pid true
        = (Except.ok (liveProp t elemId pid), 0)) := by
  have hqq := alookup_map_self (fun q => livePattern t elemId q) cr.patterns qid
  have hp := alookup_map_self (fun p => liveProp t elemId p) cr.properties pid
  constructor
  · have hnone : livePattern t elemId qid = none := by
      simp [livePattern, hunsup]
    simp [UiaElement.GetPatternValue, materialize, hqq, hq, hnone]
  · intro h
    simp [UiaElement.GetPropertyValue, materialize, hp, h]

/-- Witness for C7: the calculator window does not support the text
pattern; its cached text-pattern read yields the null pattern. -/
theorem cached_unsupported_pattern_null_witness :
    UiaElement.GetPatternValue calcTree
        (materialize calcTree 1 (some sampleCacheRequest)) UIA_TextPatternId true
      = (Except.ok none, 0) :=
  (cached_unsupported_pattern_null calcTree 1 UIA_NamePropertyId UIA_TextPatternId
    sampleCacheRequest (by decide) (by decide)).1

/-- C10: a run under `InitializeUiaOperationAbstraction`'s guard pairs
every successful Initialize with exactly one Cleanup, executed when the
guard leaves scope on every exit path — normal return or thrown error —
and when creating the automation object fails there is no Initialize and
no Cleanup at all. -/
theorem guard_pairs_cleanup (comCreateOk : Bool) (body : TestBody)
    (hInit : AbstractionEvent.evInit ∉ body.events)
    (hClean : AbstractionEvent.evCleanup ∉ body.events) :
    (runWithAbstractionGuard comCreateOk body).1.count AbstractionEvent.evInit
      = (runWithAbstractionGuard comCreateOk body).1.count AbstractionEvent.evCleanup
    ∧ (comCreateOk = true →
      (runWithAbstractionGuard comCreateOk body).1.count AbstractionEvent.evInit = 1
      ∧ (runWithAbstractionGuard comCreateOk body).1.getLast?
          = some AbstractionEvent.evCleanup
      ∧ (runWithAbstractionGuard comCreateOk body).2 = body.thrown)
    ∧ (comCreateOk = false → (runWithAbstractionGuard comCreateOk body).1 = []) := by
  cases comCreateOk with
  | false => simp [runWithAbstractionGuard]
  | true =>
      have hcInit : body.events.count AbstractionEvent.evInit = 0 :=
        List.count_eq_zero.mpr hInit
      have hcClean : body.events.count AbstractionEvent.evCleanup = 0 :=
        List.count_eq_zero.mpr hClean
      refine ⟨?_, fun _ => ⟨?_, ?_, rfl⟩, fun h => by simp at h⟩
      · simp [runWithAbstractionGuard, List.count_cons, List.count_append,
          hcInit, hcClean]
      · simp [runWithAbstractionGuard, List.count_cons, List.count_append, hcInit]
      · exact getLast?_cons_concat AbstractionEvent.evInit AbstractionEvent.evCleanup
          body.events

/-- C6: resolving a scope that has reached a terminal state, or binding
into (or recording into) a scope that is no longer Open, fails with a
scope-state error and leaves the scope unchanged; every scope operation
moves the state only along Open → Resolving → (Resolved | Failed), and
the terminal states Resolved and Failed are never left. -/
theorem scope_state_machine (t : AutomationTree) (s : UiaOperationScope)
    (i : Nat) (ty : WrapperType) (op : RemoteOp) :
    (s.state.isTerminal = true →
      UiaOperationScope.Resolve t s = (s, some UiaError.scopeStateError)
      ∧ s.BindResult i ty = (s, some UiaError.scopeStateError)
      ∧ s.recordOp op = (s, some UiaError.scopeStateError))
    ∧ (s.state ≠ ScopeState.openState →
      UiaOperationScope.Resolve t s = (s, some UiaError.scopeStateError)
      ∧ s.BindResult i ty = (s, some UiaError.scopeStateError))
    ∧ scopeStepOk s.state s.beginResolve.1.state = true
    ∧ scopeStepOk s.state (s.BindResult i ty).1.state = true
    ∧ scopeStepOk s.state (s.recordOp op).1.state = true
    ∧ (s.state = ScopeState.resolvingState →
      scopeStepOk s.state (s.finishResolve t).1.state = true
      ∧ (s.finishResolve t).1.state.isTerminal = true)
    ∧ (s.state = ScopeState.openState →
      scopeStepOk s.beginResolve.1.state (UiaOperationScope.Resolve t s).1.state = true
      ∧ (UiaOperationScope.Resolve t s).1.state.isTerminal = true) := by
  cases hs : s.state with
  | openState =>
      refine ⟨?_, ?_, ?_, ?_, ?_, ?_, ?_⟩
      · intro hterm; simp [ScopeState.isTerminal] at hterm
      · intro hne; exact absurd rfl hne
      · simp [UiaOperationScope.beginResolve, hs, scopeStepOk]
      · simp [UiaOperationScope.BindResult, hs, scopeStepOk]
      · simp [UiaOperationScope.recordOp, hs, scopeStepOk]
      · intro hres; simp at hres
      · intro _
        cases hr : (resolveRemote t s.recorded s.bindings).1 with
        | ok vs =>
            simp [UiaOperationScope.Resolve, UiaOperationScope.beginResolve, hs,
              UiaOperationScope.finishResolve, hr, scopeStepOk,
              ScopeState.isTerminal]
        | error e =>
            simp [UiaOperationScope.Resolve, UiaOperationScope.beginResolve, hs,
              UiaOperationScope.finishResolve, hr, scopeStepOk,
              ScopeState.isTerminal]
  | resolvingState =>
      refine ⟨?_, ?_, ?_, ?_, ?_, ?_, ?_⟩
      · intro hterm; simp [ScopeState.isTerminal] at hterm
      · intro _
        constructor <;>
          simp [UiaOperationScope.Resolve, UiaOperationScope.beginResolve,
            UiaOperationScope.BindResult, hs]
      · simp [UiaOperationScope.beginResolve, hs, scopeStepOk]
      · simp [UiaOperationScope.BindResult, hs, scopeStepOk]
      · simp [UiaOperationScope.recordOp, hs, scopeStepOk]
      · intro _
        cases hr : (resolveRemote t s.recorded s.bindings).1 with
        | ok vs =>
            simp [UiaOperationScope.finishResolve, hr, hs, scopeStepOk,
              ScopeState.isTerminal]
        | error e =>
            simp [UiaOperationScope.finishResolve, hr, hs, scopeStepOk,
              ScopeState.isTerminal]
      · intro hopen; simp at hopen
  | resolvedState =>
      refine ⟨?_, ?_, ?_, ?_, ?_, ?_, ?_⟩
      · intro _
        refine ⟨?_, ?_, ?_⟩ <;>
          simp [UiaOperationScope.Resolve, UiaOperationScope.beginResolve,
            UiaOperationScope.BindResult, UiaOperationScope.recordOp, hs]
      · intro _
        constructor <;>
          simp [UiaOperationScope.Resolve, UiaOperationScope.beginResolve,
            UiaOperationScope.BindResult, hs]
      · simp [UiaOperationScope.beginResolve, hs, scopeStepOk]
      · simp [UiaOperationScope.BindResult, hs, scopeStepOk]
      · simp [UiaOperationScope.recordOp, hs, scopeStepOk]
      · intro hres; simp at hres
      · intro hopen; simp at hopen
  | failedState =>
      refine ⟨?_, ?_, ?_, ?_, ?_, ?_, ?_⟩
      · intro _
        refine ⟨?_, ?_, ?_⟩ <;>
          simp [UiaOperationScope.Resolve, UiaOperationScope.beginResolve,
            UiaOperationScope.BindResult, UiaOperationScope.recordOp, hs]
      · intro _
        constructor <;>
          simp [UiaOperationScope.Resolve, UiaOperationScope.beginResolve,
            UiaOperationScope.BindResult, hs]
      · simp [UiaOperationScope.beginResolve, hs, scopeStepOk]
      · simp [UiaOperationScope.BindResult, hs, scopeStepOk]
      · simp [UiaOperationScope.recordOp, hs, scopeStepOk]
      · intro hres; simp at hres
      · intro hopen; simp at hopen

/-- Witness for C6: resolving an already-resolved scope again fails with a
scope-state error and leaves the scope unchanged. -/
theorem scope_state_machine_witness :
    UiaOperationScope.Resolve calcTree resolvedScope
      = (resolvedScope, some UiaError.scopeStateError) :=
  ((scope_state_machine calcTree resolvedScope 0 WrapperType.uiaElementType
    (RemoteOp.fromNative 0 1)).1 (by decide)).1

/-- C5: resolving an Open scope in Remote mode is atomic — either the
whole compiled program runs, every bound placeholder is materialized (one
value per binding), and the scope ends Resolved with no error, or the
resolution fails, the scope ends in the terminal Failed state with a
single surfaced error, and no bound placeholder is materialized. -/
theorem resolve_atomic (t : AutomationTree) (s : UiaOperationScope)
    (h : s.state = ScopeState.openState) :
    (∃ vs, (UiaOperationScope.Resolve t s).2 = none
      ∧ (UiaOperationScope.Resolve t s).1.state = ScopeState.resolvedState
      ∧ (UiaOperationScope.Resolve t s).1.results = some vs
      ∧ vs.length = s.bindings.length
      ∧ (resolveRemote t s.recorded s.bindings).1 = Except.ok vs)
    ∨ (∃ e, (UiaOperationScope.Resolve t s).2 = some e
      ∧ (UiaOperationScope.Resolve t s).1.state = ScopeState.failedState
      ∧ (UiaOperationScope.Resolve t s).1.results = none
      ∧ (resolveRemote t s.recorded s.bindings).1 = Except.error e) := by
  cases hr : (resolveRemote t s.recorded s.bindings).1 with
  | ok vs =>
      left
      refine ⟨vs, ?_, ?_, ?_,
        resolveRemote_ok_length t s.recorded s.bindings vs hr, rfl⟩ <;>
        simp [UiaOperationScope.Resolve, UiaOperationScope.beginResolve, h,
          UiaOperationScope.finishResolve, hr]
  | error e =>
      right
      refine ⟨e, ?_, ?_, ?_, rfl⟩ <;>
        simp [UiaOperationScope.Resolve, UiaOperationScope.beginResolve, h,
          UiaOperationScope.finishResolve, hr]

/-- Witness for C5: the sample scope resolves to a terminal state. -/
theorem resolve_atomic_witness :
    (UiaOperationScope.Resolve calcTree sampleScope).1.state.isTerminal = true := by
  rcases resolve_atomic calcTree sampleScope rfl with
      ⟨vs, _, h2, _⟩ | ⟨e, _, h2, _⟩ <;>
    simp [h2, ScopeState.isTerminal]

/-- C1: for every scope resolved in Remote mode, the bound values after
`Resolve` equal exactly the values the equivalent Local-mode execution —
eager, one synchronous call per operation, in program order — produces for
those bindings: execution mode is behaviorally transparent. -/
theorem remote_mode_refines_local_mode (t : AutomationTree)
    (s : UiaOperationScope) (vs : List UiaValue)
    (hopen : s.state = ScopeState.openState)
    (h : (UiaOperationScope.Resolve t s).1.results = some vs) :
    resolveLocal t s.recorded s.bindings = Except.ok vs := by
  cases hr : (resolveRemote t s.recorded s.bindings).1 with
  | error e =>
      exfalso
      simp [UiaOperationScope.Resolve, UiaOperationScope.beginResolve, hopen,
        UiaOperationScope.finishResolve, hr] at h
  | ok vs' =>
      have hv : vs' = vs := by
        simp [UiaOperationScope.Resolve, UiaOperationScope.beginResolve, hopen,
          UiaOperationScope.finishResolve, hr] at h
        exact h
      subst hv
      exact remote_ok_implies_local t s.recorded s.bindings vs' hr

/-- Witness for C1: the sample scope's remote resolution binds the display
name, and the local-mode execution of the same recording agrees. -/
theorem remote_mode_refines_local_mode_witness :
    resolveLocal calcTree sampleScope.recorded sampleScope.bindings
      = Except.ok [UiaValue.vBstr ("Display is 0")] :=
  remote_mode_refines_local_mode calcTree sampleScope
    [UiaValue.vBstr ("Display is 0")] rfl rfl

/-- Witness for C10 with a body that throws after one event. -/
theorem guard_pairs_cleanup_witness :
    (runWithAbstractionGuard true
        ⟨[AbstractionEvent.evBody 0], some UiaError.transportError⟩).1.count
        AbstractionEvent.evInit
      = (runWithAbstractionGuard true
        ⟨[AbstractionEvent.evBody 0], some UiaError.transportError⟩).1.count
        AbstractionEvent.evCleanup :=
  (guard_pairs_cleanup true ⟨[AbstractionEvent.evBody 0], some UiaError.transportError⟩
    (by decide) (by decide)).1

end UiaOperationAbstraction
